import Mathlib

/-!
Verification development for `src/streamlit_app.py` (remacdev/chatbot).

The script's logic is embedded shallowly:

* JSON values decoded by `resp.json()` become the inductive type `JVal`;
  Python dicts are association lists looked up by first matching key
  (Python dicts have unique keys, so lookup order is immaterial there).
* Python numbers (int/float) are modelled as exact rationals `ℚ`.  The
  textual rendering of numbers (`str`/`json.dumps`) is approximated by
  `renderNum`; no claim depends on the rendering of a number.
* A Python function that can raise is embedded with an `Option`/`Except`
  result; `none`/`.error` marks the raised exception.
-/

set_option autoImplicit false

namespace Chatbot

/-- The whitespace characters stripped by Python `str.strip()`. -/
def isPyWhitespace (c : Char) : Bool :=
  c = ' ' || c = '\t' || c = '\n' || c = '\r' || c = '\x0b' || c = '\x0c'

/-- Embedding of Python `s.strip()`: drop whitespace from both ends. -/
def pyStrip (s : String) : String :=
  String.mk (((s.toList.dropWhile isPyWhitespace).reverse.dropWhile
    isPyWhitespace).reverse)

/-- Decoded JSON values, as produced by `resp.json()` in the script. -/
inductive JVal where
  | str (s : String)
  | num (q : ℚ)
  | bool (b : Bool)
  | null
  | arr (xs : List JVal)
  | obj (fields : List (String × JVal))

namespace JVal

/-- Python dict lookup `d[k]` / `d.get(k)`: the entry for key `k`, if present.
Dicts are modelled as association lists; the first matching key wins. -/
def dictGet (fields : List (String × JVal)) (k : String) : Option JVal :=
  match fields with
  | [] => none
  | (k2, v) :: rest => if k2 = k then some v else dictGet rest k

/-- Python truthiness (`if x:`) of a decoded JSON value. -/
def truthy : JVal → Bool
  | .str s => s ≠ ""
  | .num q => q ≠ 0
  | .bool b => b
  | .null => false
  | .arr xs => !xs.isEmpty
  | .obj fs => !fs.isEmpty

/-- Whether a value is a Python `str` (`isinstance(x, str)`). -/
def isStr : JVal → Bool
  | .str _ => true
  | _ => false

/-- Approximate rendering of a Python number as text.  Integers render
exactly as Python prints them; non-integral rationals are rendered as a
fraction, an admitted approximation of float repr (no claim depends on it). -/
def renderNum (q : ℚ) : String :=
  if q.den = 1 then toString q.num
  else toString q.num ++ "/" ++ toString q.den

/-- JSON string escaping used by `json.dumps` (the escapes relevant to the
source's inputs: quote, backslash, and the common control characters). -/
def escapeJsonChar (c : Char) : String :=
  if c = '"' then "\\\""
  else if c = '\\' then "\\\\"
  else if c = '\n' then "\\n"
  else if c = '\t' then "\\t"
  else String.singleton c

/-- Render a string as a JSON string literal, double-quoted. -/
def dumpsStr (s : String) : String :=
  "\"" ++ String.join (s.toList.map escapeJsonChar) ++ "\""

mutual

/-- Embedding of `json.dumps(data)` (line 85 of the script): canonical JSON
serialization with the default separators.  In the script it sits in a
`try`/`except`; in this model it is total, so the `str(data)` fallback on
line 87 is dead code. -/
def dumps : JVal → String
  | .str s => dumpsStr s
  | .num q => renderNum q
  | .bool b => if b then "true" else "false"
  | .null => "null"
  | .arr xs => "[" ++ ", ".intercalate (dumpsList xs) ++ "]"
  | .obj fs => "\x7b" ++ ", ".intercalate (dumpsFields fs) ++ "\x7d"

def dumpsList : List JVal → List String
  | [] => []
  | v :: rest => dumps v :: dumpsList rest

def dumpsFields : List (String × JVal) → List String
  | [] => []
  | (k, v) :: rest => (dumpsStr k ++ ": " ++ dumps v) :: dumpsFields rest

end

mutual

/-- Embedding of Python `str(x)` for decoded JSON values (used on lines 80
and 93 of the script).  Strings pass through unquoted; containers print via
`repr` of their elements, booleans as `True`/`False`, `None` as `None`. -/
def pyStr : JVal → String
  | .str s => s
  | .num q => renderNum q
  | .bool b => if b then "True" else "False"
  | .null => "None"
  | .arr xs => "[" ++ ", ".intercalate (pyReprList xs) ++ "]"
  | .obj fs => "\x7b" ++ ", ".intercalate (pyReprFields fs) ++ "\x7d"

/-- Python `repr(x)`, which single-quotes strings; reached for elements of
containers rendered by `pyStr`. -/
def pyRepr : JVal → String
  | .str s => "\x27" ++ s ++ "\x27"
  | .num q => renderNum q
  | .bool b => if b then "True" else "False"
  | .null => "None"
  | .arr xs => "[" ++ ", ".intercalate (pyReprList xs) ++ "]"
  | .obj fs => "\x7b" ++ ", ".intercalate (pyReprFields fs) ++ "\x7d"

def pyReprList : List JVal → List String
  | [] => []
  | v :: rest => pyRepr v :: pyReprList rest

def pyReprFields : List (String × JVal) → List String
  | [] => []
  | (k, v) :: rest => ("\x27" ++ k ++ "\x27: " ++ pyRepr v) :: pyReprFields rest

end

/-- The single-field text keys probed by `extract_text_from_json`, in
priority order (line 52 of the script). -/
def priorityKeys : List String :=
  ["text", "output", "result", "response", "completion"]

/-- The string value of key `k` in a mapping, when `k` is present with a
string value (`key in data and isinstance(data[key], str)`). -/
def strAt (fields : List (String × JVal)) (k : String) : Option String :=
  match dictGet fields k with
  | some (.str s) => some s
  | _ => none

/-- The priority-key pass of `extract_text_from_json` (lines 52-54 of the
script): the value of the first key among `text`, `output`, `result`,
`response`, `completion` that is present with a string value.  A key present
with a non-string value is skipped, as in `isinstance(data[key], str)`. -/
def firstPriorityString (fields : List (String × JVal)) : Option String :=
  go priorityKeys
where
  go : List String → Option String
  | [] => none
  | k :: rest =>
    match dictGet fields k with
    | some (.str s) => some s
    | _ => go rest

/-- The `texts` list built by the `choices` branch (lines 58-66): for each
element that is a dict, if `message` is present and is a dict, append
`message.get("content")` whenever it is truthy (`if msg:`, with no string
check); otherwise (`elif`) append the element's `text` value when it is a
string.  The collected values are raw JSON values, as in the source. -/
def choicesCollect : List JVal → List JVal
  | [] => []
  | c :: rest =>
    (match c with
     | .obj cf =>
       match dictGet cf "message" with
       | some (.obj mf) =>
         match dictGet mf "content" with
         | some msg => if truthy msg then [msg] else []
         | none => []
       | _ =>
         match dictGet cf "text" with
         | some (.str t) => [.str t]
         | _ => []
     | _ => []) ++ choicesCollect rest

/-- Python `"\n".join` succeeds only when every item is a string; this
returns the string list when it is, and `none` (a `TypeError`) otherwise. -/
def asStrings : List JVal → Option (List String)
  | [] => some []
  | .str s :: rest => (asStrings rest).map (fun ts => s :: ts)
  | _ :: _ => none

/-- One element of the `completions` branch (lines 72-80): scan the keys
`data`, `content`, `text`, `output` in order, collecting a string value and
stringifying each item of a list value; every present key contributes. -/
def completionsOne (cf : List (String × JVal)) : List String :=
  (["data", "content", "text", "output"].map fun k =>
    match dictGet cf k with
    | some (.str s) => [s]
    | some (.arr vs) => vs.map pyStr
    | _ => []).flatten

/-- The `texts` list built by the `completions` branch (lines 70-81):
non-dict elements are skipped. -/
def completionsCollect : List JVal → List String
  | [] => []
  | .obj cf :: rest => completionsOne cf ++ completionsCollect rest
  | _ :: rest => completionsCollect rest

mutual

/-- Embedding of `extract_text_from_json` (lines 45-93 of the script).  A
result of `none` models a raised exception: in the `choices` branch the
collected `message.content` values are appended with only a truthiness
check (`if msg:`, line 63), and `"\n".join(texts)` raises `TypeError` when
one of them is not a string. -/
def extract_text_from_json : JVal → Option String
  | .str s => some s
  | .obj fields =>
    match firstPriorityString fields with
    | some s => some s
    | none =>
      match dictGet fields "choices" with
      | some (.arr cs) =>
        match asStrings (choicesCollect cs) with
        | some ts => some (pyStrip ("\n".intercalate ts))
        | none => none
      | _ =>
        match dictGet fields "completions" with
        | some (.arr cs) => some (pyStrip ("\n".intercalate (completionsCollect cs)))
        | _ => some (dumps (.obj fields))
  | .arr xs =>
    match extractList xs with
    | some rs => some ("\n".intercalate (rs.filter (fun r => r ≠ "")))
    | none => none
  | .num q => some (pyStr (.num q))
  | .bool b => some (pyStr (.bool b))
  | .null => some (pyStr .null)

/-- The per-element recursion of the list branch (line 91); a `none`
result of any element propagates, as a Python exception would. -/
def extractList : List JVal → Option (List String)
  | [] => some []
  | v :: rest =>
    match extract_text_from_json v with
    | some r => (extractList rest).map (fun rs => r :: rs)
    | none => none

end

/-- Whether, in a `choices` element, a truthy `message.content` value is a
string.  When this fails the `choices` branch of `extract_text_from_json`
raises from `"\n".join`. -/
def contentOk : JVal → Bool
  | .obj cf =>
    (match dictGet cf "message" with
     | some (.obj mf) =>
       match dictGet mf "content" with
       | some msg => !truthy msg || msg.isStr
       | none => true
     | _ => true)
  | _ => true

/-- The `choices` collection rule as claim C5 states it: for each element
that is a mapping, the nested `message.content` field if present, and
otherwise the element's string-valued `text` field; collect the found
strings in order. -/
def claimChoicesCollect : List JVal → List String
  | [] => []
  | c :: rest =>
    (match c with
     | .obj cf =>
       match (match dictGet cf "message" with
              | some (.obj mf) => dictGet mf "content"
              | _ => none) with
       | some (.str s) => [s]
       | some _ => []
       | none =>
         match dictGet cf "text" with
         | some (.str t) => [t]
         | _ => []
     | _ => []) ++ claimChoicesCollect rest

/-- The `choices` collection rule as amended: the nested `message.content`
value is taken only when `message` is a mapping and the content value is
truthy (absent or falsy content, such as the empty string, is skipped
without falling back to `text`); the string-valued `text` field is used
only when `message` is absent or not a mapping. -/
def choicesSpecCollect : List JVal → List String
  | [] => []
  | c :: rest =>
    (match c with
     | .obj cf =>
       match dictGet cf "message" with
       | some (.obj mf) =>
         match dictGet mf "content" with
         | some (.str s) => if s ≠ "" then [s] else []
         | _ => []
       | _ =>
         match dictGet cf "text" with
         | some (.str t) => [t]
         | _ => []
     | _ => []) ++ choicesSpecCollect rest

end JVal

/-- Numeric value of a list of decimal digit characters. -/
def digitsVal (cs : List Char) : ℕ :=
  cs.foldl (fun a c => a * 10 + (c.toNat - 48)) 0

/-- Embedding of Python `float(s)` on strings: optional surrounding
whitespace, optional sign, a decimal literal with optional fraction and
optional exponent.  (`inf`/`nan` spellings and digit underscores, which the
script never receives in a timing header or field, are not modelled.) -/
def parseFloat? (s : String) : Option ℚ :=
  let cs := (pyStrip s).toList
  let signAndRest : ℚ × List Char :=
    match cs with
    | '+' :: r => (1, r)
    | '-' :: r => (-1, r)
    | r => (1, r)
  let sign := signAndRest.1
  let cs1 := signAndRest.2
  let ip := cs1.takeWhile Char.isDigit
  let rest := cs1.dropWhile Char.isDigit
  let mantAndRest : Option (ℚ × List Char) :=
    match rest with
    | '.' :: r2 =>
      let fp := r2.takeWhile Char.isDigit
      let r3 := r2.dropWhile Char.isDigit
      if ip.isEmpty && fp.isEmpty then none
      else some ((digitsVal ip : ℚ) + (digitsVal fp : ℚ) / ((10 : ℚ) ^ fp.length), r3)
    | _ => if ip.isEmpty then none else some ((digitsVal ip : ℚ), rest)
  match mantAndRest with
  | none => none
  | some (m, rest2) =>
    match rest2 with
    | [] => some (sign * m)
    | c :: r2 =>
      if c = 'e' ∨ c = 'E' then
        let esignAndRest : Int × List Char :=
          match r2 with
          | '+' :: t => (1, t)
          | '-' :: t => (-1, t)
          | t => (1, t)
        let ed := esignAndRest.2.takeWhile Char.isDigit
        let r4 := esignAndRest.2.dropWhile Char.isDigit
        if ed.isEmpty ∨ !r4.isEmpty then none
        else some (sign * m * (10 : ℚ) ^ (esignAndRest.1 * (digitsVal ed : Int)))
      else none

/-- Embedding of Python `float(x)` applied to a decoded JSON value, as in
`float(d[key])` (line 253): numbers convert, numeric strings parse, booleans
convert to 0/1, and anything else raises (`none`). -/
def pyFloat? : JVal → Option ℚ
  | .num q => some q
  | .str s => parseFloat? s
  | .bool b => some (if b then 1 else 0)
  | _ => none

/-- Plain-dict lookup for the header mapping, `headers.get(hk)` (line 233).
`dict(resp.headers)` is a plain Python dict, so the lookup is an exact,
case-sensitive key comparison. -/
def headerGet (headers : List (String × String)) (k : String) : Option String :=
  match headers with
  | [] => none
  | (k2, v) :: rest => if k2 = k then some v else headerGet rest k

/-- The header keys probed by `find_inference_time`, in order (line 232). -/
def timingHeaderKeys : List String :=
  ["x-inference-time", "x-process-time", "x-runtime-ms", "x-duration-ms"]

/-- The header loop of `find_inference_time` (lines 232-243), before
normalization: the parsed value of the first probed key whose header value
is present, truthy (nonempty), and parses as a float; an unparseable or
empty value falls through to the next key. -/
def headerRawValue (headers : List (String × String)) : Option ℚ :=
  go timingHeaderKeys
where
  go : List String → Option ℚ
  | [] => none
  | k :: rest =>
    match headerGet headers k with
    | some hv =>
      if hv ≠ "" then
        match parseFloat? hv with
        | some v => some v
        | none => go rest
      else go rest
    | none => go rest

/-- The key scan of `_search` at one dict level (lines 250-255): probe
`inference_time`, `inferenceSeconds`, `duration`, `elapsed`, `time`,
`runtime` in order; a present key whose value converts via `float` returns,
a failing conversion falls through to the next key. -/
def searchKeys : List String → List (String × JVal) → Option ℚ
  | [], _ => none
  | k :: rest, fs =>
    match JVal.dictGet fs k with
    | some v =>
      match pyFloat? v with
      | some x => some x
      | none => searchKeys rest fs
    | none => searchKeys rest fs

/-- The timing field names probed by `_search`, in order (line 250). -/
def timingBodyKeys : List String :=
  ["inference_time", "inferenceSeconds", "duration", "elapsed", "time", "runtime"]

mutual

/-- Embedding of the nested `_search` helper (lines 246-266): on a dict,
scan the timing keys at this level first, then recurse into the values in
order; on a list, recurse element-wise; anything else yields nothing. -/
def searchBody : JVal → Option ℚ
  | .obj fs =>
    match searchKeys timingBodyKeys fs with
    | some v => some v
    | none => searchValues fs
  | .arr xs => searchList xs
  | _ => none

def searchValues : List (String × JVal) → Option ℚ
  | [] => none
  | (_, v) :: rest =>
    match searchBody v with
    | some r => some r
    | none => searchValues rest

def searchList : List JVal → Option ℚ
  | [] => none
  | v :: rest =>
    match searchBody v with
    | some r => some r
    | none => searchList rest

end

/-- Embedding of `find_inference_time(body_obj, headers)` (lines 229-272).
The header pass runs only when the headers dict is truthy (nonempty) and
returns its value normalized (`v/1000` when `v > 10`) without looking at
the body; otherwise the body is searched and the found value is normalized
the same way. -/
def find_inference_time (body : JVal) (headers : List (String × String)) : Option ℚ :=
  match (if headers.isEmpty then none else headerRawValue headers) with
  | some v => some (if v > 10 then v / 1000 else v)
  | none =>
    match searchBody body with
    | some t => some (if t > 10 then t / 1000 else t)
    | none => none

/-- The raw (pre-normalization) timing value `find_inference_time` obtains:
the first parseable probed header when the header pass finds one, else the
first numeric body field found by `_search`. -/
def obtainedValue (body : JVal) (headers : List (String × String)) : Option ℚ :=
  match (if headers.isEmpty then none else headerRawValue headers) with
  | some v => some v
  | none => searchBody body

/-- Embedding of the network-time derivation (lines 278-281): the latency
when no inference time was found, else `max(latency - inference_time, 0.0)`. -/
def network_time (latency : ℚ) (inference_time : Option ℚ) : ℚ :=
  match inference_time with
  | some it => max (latency - it) 0
  | none => latency

/-- One analytics record.  Python records are dicts; an absent key and a key
present with value `None` are both modelled as `none` (every reader of the
store uses `r.get(key) is not None`). -/
structure AnalyticsRecord where
  timestamp : ℚ
  latency : Option ℚ
  inference_time : Option ℚ
  network_time : Option ℚ
  error : Option String

/-- The record appended on a failed attempt (line 225): a timestamp and the
error text only. -/
def errorRecord (ts : ℚ) (e : String) : AnalyticsRecord :=
  { timestamp := ts, latency := none, inference_time := none,
    network_time := none, error := some e }

/-- The record appended on a successful attempt when analytics is enabled
(lines 285-292). -/
def successRecord (ts latency : ℚ) (inference : Option ℚ) : AnalyticsRecord :=
  { timestamp := ts, latency := some latency, inference_time := inference,
    network_time := some (network_time latency inference), error := none }

/-- Per-message timing metadata attached to assistant messages (line 306). -/
structure MsgMeta where
  latency : ℚ
  inference_time : Option ℚ
  network_time : ℚ

/-- One chat message in `st.session_state.messages`. -/
structure ChatMessage where
  role : String
  content : String
  meta : Option MsgMeta

/-- The outcome of the single `query_ollama_cached` call of a turn: either
an exception (timeout, connection error, the non-2xx raise of
`raise_for_status`, ...) caught by the `except` block, or the measured
latency together with the extracted content, parsed body (null when the
response was not JSON) and response headers. -/
inductive TurnOutcome where
  | failure (e : String)
  | success (latency : ℚ) (content : String) (body : JVal)
      (respHeaders : List (String × String))

/-- The mutable session state touched by a turn: the message log and the
analytics record list. -/
structure TurnState where
  messages : List ChatMessage
  records : List AnalyticsRecord

/-- Embedding of the turn handler after the user message was appended
(lines 213-306): on failure, append the inline error message as the
assistant turn and one error record, then stop (`st.stop()`); on success,
derive the inference time (only when analytics is enabled), append one
success record (only when analytics is enabled) and append the assistant
message with its timing metadata. -/
def handleOutcome (enableAnalytics : Bool) (ts : ℚ) (st : TurnState) :
    TurnOutcome → TurnState
  | .failure e =>
    { messages := st.messages ++ [{ role := "assistant", content := "Error: " ++ e, meta := none }],
      records := st.records ++ [errorRecord ts e] }
  | .success latency content body respHeaders =>
    let inference := if enableAnalytics then find_inference_time body respHeaders else none
    { messages := st.messages ++
        [{ role := "assistant", content := content,
           meta := some { latency := latency, inference_time := inference,
                          network_time := network_time latency inference } }],
      records :=
        if enableAnalytics then st.records ++ [successRecord ts latency inference]
        else st.records }

/-- Total request count shown by the analytics panel (line 353). -/
def total_requests (rs : List AnalyticsRecord) : ℕ := rs.length

/-- The latency samples: values of records whose `latency` key is present
and not `None` (line 354). -/
def latencies (rs : List AnalyticsRecord) : List ℚ :=
  rs.filterMap (fun r => r.latency)

/-- The inference-time samples (line 355). -/
def inference_times (rs : List AnalyticsRecord) : List ℚ :=
  rs.filterMap (fun r => r.inference_time)

/-- The network-time samples (line 356). -/
def network_times (rs : List AnalyticsRecord) : List ℚ :=
  rs.filterMap (fun r => r.network_time)

/-- `statistics.mean` of a sample list (only applied to nonempty lists in
the script, guarded by `if latencies else None`). -/
def pymean (xs : List ℚ) : ℚ := xs.sum / xs.length

/-- `avg_latency` (line 359): the mean when there is at least one sample,
else the no-data marker `None`. -/
def avg_latency (rs : List AnalyticsRecord) : Option ℚ :=
  if (latencies rs).isEmpty then none else some (pymean (latencies rs))

/-- `avg_inference` (line 360). -/
def avg_inference (rs : List AnalyticsRecord) : Option ℚ :=
  if (inference_times rs).isEmpty then none else some (pymean (inference_times rs))

/-- `avg_network` (line 361). -/
def avg_network (rs : List AnalyticsRecord) : Option ℚ :=
  if (network_times rs).isEmpty then none else some (pymean (network_times rs))

/-- `rpm(window_seconds)` (lines 370-372): the count of records with
`timestamp >= now - window_seconds`, divided by the window in minutes. -/
def rpm (now : ℚ) (rs : List AnalyticsRecord) (window : ℚ) : ℚ :=
  ((rs.countP (fun r => decide (now - window ≤ r.timestamp))) : ℚ) / (window / 60)

/-! ## Theorems about the claims -/

/-- One step of the priority-key loop, phrased through `strAt`. -/
theorem firstPriorityString_go_cons (fields : List (String × JVal)) (k : String)
    (rest : List String) :
    JVal.firstPriorityString.go fields (k :: rest) =
      (match JVal.strAt fields k with
       | some s => some s
       | none => JVal.firstPriorityString.go fields rest) := by
  unfold JVal.strAt
  cases h : JVal.dictGet fields k with
  | none => simp [JVal.firstPriorityString.go, h]
  | some v => cases v <;> simp [JVal.firstPriorityString.go, h]

/-- C1: for every mapping that has at least one of the keys `text`,
`output`, `result`, `response`, `completion` with a string value,
`extract_text_from_json` returns, verbatim, the value of the first such key
in that priority order whose value is a string. -/
theorem C1_first_priority_string (fields : List (String × JVal)) (i : ℕ)
    (hi : i < 5) (s : String)
    (hs : JVal.strAt fields (JVal.priorityKeys.getD i "") = some s)
    (hfirst : ∀ j, j < i → JVal.strAt fields (JVal.priorityKeys.getD j "") = none) :
    JVal.extract_text_from_json (.obj fields) = some s := by
  have hmain : JVal.firstPriorityString fields = some s := by
    unfold JVal.firstPriorityString
    interval_cases i
    · simp only [JVal.priorityKeys, List.getD] at hs
      simp_all [JVal.priorityKeys, firstPriorityString_go_cons]
    · have h0 := hfirst 0 (by norm_num)
      simp only [JVal.priorityKeys, List.getD] at hs h0
      simp_all [JVal.priorityKeys, firstPriorityString_go_cons]
    · have h0 := hfirst 0 (by norm_num)
      have h1 := hfirst 1 (by norm_num)
      simp only [JVal.priorityKeys, List.getD] at hs h0 h1
      simp_all [JVal.priorityKeys, firstPriorityString_go_cons]
    · have h0 := hfirst 0 (by norm_num)
      have h1 := hfirst 1 (by norm_num)
      have h2 := hfirst 2 (by norm_num)
      simp only [JVal.priorityKeys, List.getD] at hs h0 h1 h2
      simp_all [JVal.priorityKeys, firstPriorityString_go_cons]
    · have h0 := hfirst 0 (by norm_num)
      have h1 := hfirst 1 (by norm_num)
      have h2 := hfirst 2 (by norm_num)
      have h3 := hfirst 3 (by norm_num)
      simp only [JVal.priorityKeys, List.getD] at hs h0 h1 h2 h3
      simp_all [JVal.priorityKeys, firstPriorityString_go_cons]
  simp [JVal.extract_text_from_json, hmain]

/-- Witness for C1 at the mapping `{"output": "world", "text": 5}`: the
`text` key is present but not a string, so the `output` value is returned. -/
theorem C1_first_priority_string_witness :
    JVal.strAt [("output", JVal.str "world"), ("text", JVal.num 5)]
        (JVal.priorityKeys.getD 1 "") = some "world" ∧
    JVal.extract_text_from_json
        (.obj [("output", .str "world"), ("text", .num 5)]) = some "world" := by
  have hs : JVal.strAt [("output", JVal.str "world"), ("text", JVal.num 5)]
      (JVal.priorityKeys.getD 1 "") = some "world" := rfl
  refine ⟨hs, C1_first_priority_string _ 1 (by norm_num) _ hs ?_⟩
  intro j hj
  interval_cases j
  rfl

/-- C5 fails on the code: on
`{"choices": [{"message": {"content": ""}}, {"message": {}, "text": "hi"},
{"message": {"content": "b"}}]}` the code skips the present-but-falsy
content `""` and, because `message` is a dict, never consults the second
element's `text` field, returning `"b"`; the claim's collection rule
predicts `"hi\nb"`. -/
theorem C5_counterexample_falsy_content :
    JVal.extract_text_from_json
      (.obj [("choices", .arr
        [.obj [("message", .obj [("content", .str "")])],
         .obj [("message", .obj []), ("text", .str "hi")],
         .obj [("message", .obj [("content", .str "b")])]])]) = some "b" ∧
    pyStrip ("\n".intercalate (JVal.claimChoicesCollect
        [.obj [("message", .obj [("content", .str "")])],
         .obj [("message", .obj []), ("text", .str "hi")],
         .obj [("message", .obj [("content", .str "b")])]])) = "hi\nb" ∧
    ("b" : String) ≠ "hi\nb" := by
  refine ⟨rfl, rfl, by decide⟩

/-- When every truthy `message.content` among the `choices` elements is a
string, the join of the code's collected values succeeds and produces
exactly the amended collection. -/
theorem asStrings_choicesCollect (cs : List JVal)
    (h : cs.all JVal.contentOk = true) :
    JVal.asStrings (JVal.choicesCollect cs) = some (JVal.choicesSpecCollect cs) := by
  induction cs with
  | nil => rfl
  | cons c rest ih =>
    rw [List.all_cons, Bool.and_eq_true] at h
    obtain ⟨hc, hrest⟩ := h
    have ihr := ih hrest
    cases c with
    | obj cf =>
      cases hm : JVal.dictGet cf "message" with
      | some mv =>
        cases mv with
        | obj mf =>
          cases hcont : JVal.dictGet mf "content" with
          | some msg =>
            by_cases htr : JVal.truthy msg = true
            · have hstr : msg.isStr = true := by
                simp [JVal.contentOk, hm, hcont, htr] at hc
                exact hc
              cases msg with
              | str s =>
                have hs : s ≠ "" := by simpa [JVal.truthy] using htr
                simp [JVal.choicesCollect, JVal.choicesSpecCollect, hm, hcont, htr,
                  JVal.asStrings, ihr, hs]
              | num q => simp [JVal.isStr] at hstr
              | bool b => simp [JVal.isStr] at hstr
              | null => simp [JVal.isStr] at hstr
              | arr xs => simp [JVal.isStr] at hstr
              | obj fs => simp [JVal.isStr] at hstr
            · cases msg <;>
                simp_all [JVal.choicesCollect, JVal.choicesSpecCollect, hm, hcont,
                  JVal.truthy, JVal.asStrings]
          | none =>
            simp [JVal.choicesCollect, JVal.choicesSpecCollect, hm, hcont, ihr]
        | str s =>
          cases ht : JVal.dictGet cf "text" with
          | none => simp [JVal.choicesCollect, JVal.choicesSpecCollect, hm, ht, ihr]
          | some tv =>
            cases tv <;>
              simp [JVal.choicesCollect, JVal.choicesSpecCollect, hm, ht, ihr,
                JVal.asStrings]
        | num q =>
          cases ht : JVal.dictGet cf "text" with
          | none => simp [JVal.choicesCollect, JVal.choicesSpecCollect, hm, ht, ihr]
          | some tv =>
            cases tv <;>
              simp [JVal.choicesCollect, JVal.choicesSpecCollect, hm, ht, ihr,
                JVal.asStrings]
        | bool b =>
          cases ht : JVal.dictGet cf "text" with
          | none => simp [JVal.choicesCollect, JVal.choicesSpecCollect, hm, ht, ihr]
          | some tv =>
            cases tv <;>
              simp [JVal.choicesCollect, JVal.choicesSpecCollect, hm, ht, ihr,
                JVal.asStrings]
        | null =>
          cases ht : JVal.dictGet cf "text" with
          | none => simp [JVal.choicesCollect, JVal.choicesSpecCollect, hm, ht, ihr]
          | some tv =>
            cases tv <;>
              simp [JVal.choicesCollect, JVal.choicesSpecCollect, hm, ht, ihr,
                JVal.asStrings]
        | arr xs =>
          cases ht : JVal.dictGet cf "text" with
          | none => simp [JVal.choicesCollect, JVal.choicesSpecCollect, hm, ht, ihr]
          | some tv =>
            cases tv <;>
              simp [JVal.choicesCollect, JVal.choicesSpecCollect, hm, ht, ihr,
                JVal.asStrings]
      | none =>
        cases ht : JVal.dictGet cf "text" with
        | none => simp [JVal.choicesCollect, JVal.choicesSpecCollect, hm, ht, ihr]
        | some tv =>
          cases tv <;>
            simp [JVal.choicesCollect, JVal.choicesSpecCollect, hm, ht, ihr,
              JVal.asStrings]
    | str s => simp [JVal.choicesCollect, JVal.choicesSpecCollect, ihr]
    | num q => simp [JVal.choicesCollect, JVal.choicesSpecCollect, ihr]
    | bool b => simp [JVal.choicesCollect, JVal.choicesSpecCollect, ihr]
    | null => simp [JVal.choicesCollect, JVal.choicesSpecCollect, ihr]
    | arr xs => simp [JVal.choicesCollect, JVal.choicesSpecCollect, ihr]

/-- C5 as amended: for a mapping with no string-valued priority key whose
`choices` key holds a sequence in which every truthy `message.content` is a
string, extraction takes, per element that is a mapping, the truthy nested
`message.content` (skipping absent or falsy content without falling back to
`text`), and the string-valued `text` field only when `message` is absent
or not a mapping; the found strings are joined with newlines and trimmed. -/
theorem C5_choices_extraction (fields : List (String × JVal)) (cs : List JVal)
    (hprio : JVal.firstPriorityString fields = none)
    (hch : JVal.dictGet fields "choices" = some (.arr cs))
    (hok : cs.all JVal.contentOk = true) :
    JVal.extract_text_from_json (.obj fields) =
      some (pyStrip ("\n".intercalate (JVal.choicesSpecCollect cs))) := by
  simp [JVal.extract_text_from_json, hprio, hch, asStrings_choicesCollect cs hok]

/-- Witness for C5 as amended, at the end-to-end shape
`{"choices": [{"message": {"content": "hi there"}}, {"text": "ok"}]}`. -/
theorem C5_choices_extraction_witness :
    JVal.firstPriorityString
      [("choices", JVal.arr
        [.obj [("message", .obj [("content", .str "hi there")])],
         .obj [("text", .str "ok")]])] = none ∧
    ([JVal.obj [("message", JVal.obj [("content", JVal.str "hi there")])],
      JVal.obj [("text", JVal.str "ok")]].all JVal.contentOk = true) ∧
    JVal.extract_text_from_json
      (.obj [("choices", .arr
        [.obj [("message", .obj [("content", .str "hi there")])],
         .obj [("text", .str "ok")]])]) = some "hi there\nok" := by
  refine ⟨rfl, rfl, ?_⟩
  exact (C5_choices_extraction
    [("choices", .arr
      [.obj [("message", .obj [("content", .str "hi there")])],
       .obj [("text", .str "ok")]])]
    [.obj [("message", .obj [("content", .str "hi there")])],
     .obj [("text", .str "ok")]] rfl rfl rfl).trans (by rfl)

/-- C6: for a sequence input whose per-element extractions all succeed,
`extract_text_from_json` is the newline join of the per-element results
with empty results omitted. -/
theorem C6_sequence_join (xs : List JVal) (rs : List String)
    (h : JVal.extractList xs = some rs) :
    JVal.extract_text_from_json (.arr xs) =
      some ("\n".intercalate (rs.filter (fun r => r ≠ ""))) := by
  simp [JVal.extract_text_from_json, h]

/-- Witness for C6 at `["a", {}, "b"]`: the empty mapping extracts to the
non-empty string `"{}"`, so nothing is dropped and the result is
`"a\n{}\nb"`. -/
theorem C6_sequence_join_witness :
    JVal.extractList [.str "a", .obj [], .str "b"] = some ["a", "\x7b\x7d", "b"] ∧
    JVal.extract_text_from_json (.arr [.str "a", .obj [], .str "b"]) =
      some "a\n\x7b\x7d\nb" := by
  have h : JVal.extractList [.str "a", .obj [], .str "b"] =
      some ["a", "\x7b\x7d", "b"] := rfl
  exact ⟨h, (C6_sequence_join _ _ h).trans (by rfl)⟩

/-- C2 fails on the code: the header lookup is an exact, case-sensitive
dict access (`headers.get(hk)` on the plain dict built by
`dict(resp.headers)`), not a case-insensitive match.  The header
`X-Inference-Time: 500` is not found (and the empty body has no timing
field), while the lower-case spelling of the same header yields `0.5`. -/
theorem C2_counterexample_case_sensitivity :
    find_inference_time .null [("X-Inference-Time", "500")] = none ∧
    find_inference_time .null [("x-inference-time", "500")] = some (500 / 1000) := by
  constructor
  · simp +decide [find_inference_time, headerRawValue, headerRawValue.go,
      timingHeaderKeys, headerGet, parseFloat?, pyStrip, isPyWhitespace, searchBody]
  · simp +decide [find_inference_time, headerRawValue, headerRawValue.go,
      timingHeaderKeys, headerGet, parseFloat?, pyStrip, isPyWhitespace,
      digitsVal, List.takeWhile, List.dropWhile]

/-- C2 as amended: `find_inference_time` first checks the headers, matching
the keys `x-inference-time`, `x-process-time`, `x-runtime-ms`,
`x-duration-ms` by exact (case-sensitive) name in that order, and for the
first header whose value parses as a number it returns a result derived
from that header alone, without consulting the body. -/
theorem C2_header_pass_case_sensitive (headers : List (String × String)) (v : ℚ)
    (hne : headers.isEmpty = false) (hv : headerRawValue headers = some v)
    (body body2 : JVal) :
    find_inference_time body headers = some (if v > 10 then v / 1000 else v) ∧
    find_inference_time body headers = find_inference_time body2 headers := by
  have key : ∀ b : JVal, find_inference_time b headers =
      some (if v > 10 then v / 1000 else v) := by
    intro b
    unfold find_inference_time
    simp [hne, hv]
  exact ⟨key body, (key body).trans (key body2).symm⟩

/-- Witness for C2 as amended: the header `x-process-time: 1500` yields
`1.5` whether the body is `{"duration": 7}` or null — the body's own
timing field is never consulted. -/
theorem C2_header_pass_case_sensitive_witness :
    ([("x-process-time", "1500")] : List (String × String)).isEmpty = false ∧
    headerRawValue [("x-process-time", "1500")] = some 1500 ∧
    (find_inference_time (.obj [("duration", .num 7)]) [("x-process-time", "1500")] =
       some (if (1500 : ℚ) > 10 then 1500 / 1000 else 1500) ∧
     find_inference_time (.obj [("duration", .num 7)]) [("x-process-time", "1500")] =
       find_inference_time .null [("x-process-time", "1500")]) := by
  have hne : ([("x-process-time", "1500")] : List (String × String)).isEmpty = false := rfl
  have hv : headerRawValue [("x-process-time", "1500")] = some 1500 := by
    simp +decide [headerRawValue, headerRawValue.go, timingHeaderKeys, headerGet,
      parseFloat?, pyStrip, isPyWhitespace, digitsVal,
      List.takeWhile, List.dropWhile]
  exact ⟨hne, hv, C2_header_pass_case_sensitive _ _ hne hv _ _⟩

/-- C3: whatever raw numeric timing value `find_inference_time` obtains,
whether from the header pass or from the body search, the result is that
value divided by 1000 when it exceeds 10 and the value unchanged otherwise,
applied exactly once. -/
theorem C3_normalize_once (body : JVal) (headers : List (String × String)) (v : ℚ)
    (h : obtainedValue body headers = some v) :
    find_inference_time body headers = some (if v > 10 then v / 1000 else v) := by
  unfold obtainedValue at h
  unfold find_inference_time
  cases hh : (if headers.isEmpty then none else headerRawValue headers) with
  | some w =>
    rw [hh] at h
    simp only [Option.some.injEq] at h
    subst h
    simp [hh]
  | none =>
    rw [hh] at h
    simp at h
    simp [h]

/-- Witness for C3: the header value `500` is normalized to `500/1000` and
the header value `2.3` is returned unchanged. -/
theorem C3_normalize_once_witness :
    obtainedValue .null [("x-inference-time", "500")] = some 500 ∧
    find_inference_time .null [("x-inference-time", "500")] = some (500 / 1000) ∧
    obtainedValue .null [("x-inference-time", "2.3")] = some (23 / 10) ∧
    find_inference_time .null [("x-inference-time", "2.3")] = some (23 / 10) := by
  have h1 : obtainedValue .null [("x-inference-time", "500")] = some 500 := by
    simp +decide [obtainedValue, headerRawValue, headerRawValue.go, timingHeaderKeys,
      headerGet, parseFloat?, pyStrip, isPyWhitespace, digitsVal,
      List.takeWhile, List.dropWhile]
  have h2 : obtainedValue .null [("x-inference-time", "2.3")] = some (23 / 10) := by
    simp +decide [obtainedValue, headerRawValue, headerRawValue.go, timingHeaderKeys,
      headerGet, parseFloat?, pyStrip, isPyWhitespace, digitsVal,
      List.takeWhile, List.dropWhile]
    norm_num
  refine ⟨h1, ?_, h2, ?_⟩
  · rw [C3_normalize_once _ _ _ h1]
    norm_num
  · rw [C3_normalize_once _ _ _ h2]
    norm_num

/-- C4: for every successful turn, the recorded network time is
`max(latency - inference_time, 0)` when an inference time was found, and
the latency itself when none was found. -/
theorem C4_network_time_invariant (ts l i : ℚ) :
    (successRecord ts l (some i)).network_time = some (max (l - i) 0) ∧
    (successRecord ts l none).network_time = some l := by
  constructor <;> simp [successRecord, network_time]

/-- C7 fails on the code: `extract_text_from_json` is not total.  On the
mapping `{"choices": [{"message": {"content": 1}}]}` the truthy non-string
content value `1` is appended to `texts` (the `if msg:` check on line 63
tests truthiness, not `isinstance(msg, str)`), and `"\n".join(texts)`
raises `TypeError`; the embedding returns `none` at that input. -/
theorem C7_extract_raises_on_truthy_nonstring_content :
    JVal.extract_text_from_json
      (.obj [("choices", .arr [.obj [("message", .obj [("content", .num 1)])]])]) =
      none := by
  rfl

/-- C8: on a transport failure, the turn appends exactly one analytics
record carrying only the timestamp and the error text (no latency,
inference, or network fields), appends only the inline error message as the
assistant turn, and stops. -/
theorem C8_transport_failure_record (ea : Bool) (ts : ℚ) (st : TurnState) (e : String) :
    (handleOutcome ea ts st (.failure e)).records = st.records ++ [errorRecord ts e] ∧
    (errorRecord ts e).timestamp = ts ∧
    (errorRecord ts e).error = some e ∧
    (errorRecord ts e).latency = none ∧
    (errorRecord ts e).inference_time = none ∧
    (errorRecord ts e).network_time = none ∧
    (handleOutcome ea ts st (.failure e)).messages =
      st.messages ++ [{ role := "assistant", content := "Error: " ++ e, meta := none }] := by
  refine ⟨rfl, rfl, rfl, rfl, rfl, rfl, rfl⟩

/-- C9 fails on the code: a successful request attempt with analytics
disabled appends no analytics record at all (the append on lines 284-292 is
guarded by `if enable_analytics:`), so it is not the case that every
attempt appends exactly one record. -/
theorem C9_counterexample_success_without_analytics :
    (handleOutcome false 0 { messages := [], records := [] }
      (.success 1 "hi" .null [])).records.length = 0 := by
  rfl

/-- C10: the summary statistics are means over only the records where the
relevant field is present, reporting no data on an empty sample; an error
record (timestamp and error text only) increases the total request count
and the throughput of a window containing its timestamp, but never changes
`avg_latency`, `avg_inference`, or `avg_network`. -/
theorem C10_error_records_and_stats (rs : List AnalyticsRecord) (ts now w : ℚ)
    (e : String) (hw : 0 < w) (hts : now - w ≤ ts) :
    total_requests (rs ++ [errorRecord ts e]) = total_requests rs + 1 ∧
    avg_latency (rs ++ [errorRecord ts e]) = avg_latency rs ∧
    avg_inference (rs ++ [errorRecord ts e]) = avg_inference rs ∧
    avg_network (rs ++ [errorRecord ts e]) = avg_network rs ∧
    rpm now (rs ++ [errorRecord ts e]) w = rpm now rs w + 60 / w ∧
    avg_latency [] = none := by
  refine ⟨?_, ?_, ?_, ?_, ?_, rfl⟩
  · simp [total_requests]
  · simp [avg_latency, latencies, List.filterMap_append, errorRecord]
  · simp [avg_inference, inference_times, List.filterMap_append, errorRecord]
  · simp [avg_network, network_times, List.filterMap_append, errorRecord]
  · have hcount :
        (rs ++ [errorRecord ts e]).countP (fun r => decide (now - w ≤ r.timestamp)) =
          rs.countP (fun r => decide (now - w ≤ r.timestamp)) + 1 := by
      simp only [List.countP_append, List.countP_cons, List.countP_nil, errorRecord]
      simp [hts]
    rw [rpm, rpm, hcount]
    push_cast
    have hw0 : w ≠ 0 := ne_of_gt hw
    field_simp
    ring

/-- Witness for C10: one error record at timestamp 0, a 60-second window
ending at time 0. -/
theorem C10_error_records_and_stats_witness :
    (0 : ℚ) < 60 ∧ (0 : ℚ) - 60 ≤ 0 ∧
    (total_requests ([] ++ [errorRecord 0 "boom"]) = total_requests [] + 1 ∧
     avg_latency ([] ++ [errorRecord 0 "boom"]) = avg_latency [] ∧
     avg_inference ([] ++ [errorRecord 0 "boom"]) = avg_inference [] ∧
     avg_network ([] ++ [errorRecord 0 "boom"]) = avg_network [] ∧
     rpm 0 ([] ++ [errorRecord 0 "boom"]) 60 = rpm 0 [] 60 + 60 / 60 ∧
     avg_latency [] = none) :=
  ⟨by norm_num, by norm_num,
   C10_error_records_and_stats [] 0 0 60 "boom" (by norm_num) (by norm_num)⟩

/-- C9 as amended: a failed attempt always appends exactly one analytics
record, and a successful attempt appends exactly one record when analytics
is enabled and none when it is disabled. -/
theorem C9_record_count (ea : Bool) (ts : ℚ) (st : TurnState) (e : String)
    (l : ℚ) (c : String) (b : JVal) (hs : List (String × String)) :
    (handleOutcome ea ts st (.failure e)).records.length = st.records.length + 1 ∧
    (handleOutcome ea ts st (.success l c b hs)).records.length =
      st.records.length + (if ea then 1 else 0) := by
  cases ea <;> simp [handleOutcome]

end Chatbot
